import Mathlib

/-!
Verification development for the `domain-checker` repository.

The definitions below are a shallow embedding, in Lean 4, of the Go code of
the repository (the single-file `main.go` variant and the equivalent
`pkg/domain`, `pkg/whois`, `pkg/state` split).  Instants of `time.Time` are
modelled as `Int` nanosecond counts measured from Go's zero time, so that
`Time.IsZero` becomes `= 0`, `Time.After` becomes `>`, and `time.Until`
becomes subtraction.  External effects (the Notifier, state-file writes,
sleeps, the DNS/WHOIS transports) are made explicit: each embedded operation
returns, alongside the new in-memory state, the list of notifications it
emitted, the list of states it persisted, and (for the retry loop) the trace
of attempts and sleeps it performed.
-/

namespace DomainChecker

/-- Nanoseconds per day, used by `handleExpiry`'s day computation
(`time.Until(expDate).Hours() / 24`). -/
def nsPerDay : Int := 86400000000000

/-- Embedding of the Go `DomainState` struct: per-domain expiration instant
(nanoseconds from the zero time; `0` is the zero value meaning "unknown")
and the two notification flags. -/
structure DomainState where
  expiration : Int
  notifiedExpiry : Bool
  notifiedAvailable : Bool
deriving DecidableEq, Repr

/-- A notification handed to the Notifier collaborator: either the
availability message or the expiry-warning message (which carries the
computed days-left figure). -/
inductive Note where
  | avail
  | expiry (daysLeft : Int)
deriving DecidableEq, Repr

/-- Result of one of the per-domain handlers: the updated in-memory state,
the notifications emitted (in order), and the states persisted via
`saveState` (in order). -/
structure StepResult where
  state : DomainState
  notes : List Note
  saves : List DomainState
deriving DecidableEq, Repr

/-- Embedding of `handleAvailable` (main.go / Processor.handleAvailable):
if `NotifiedAvailable` is not yet set, notify, set the flag and persist;
otherwise do nothing. -/
def handleAvailable (s : DomainState) : StepResult :=
  if !s.notifiedAvailable then
    let s2 := { s with notifiedAvailable := true }
    ⟨s2, [Note.avail], [s2]⟩
  else
    ⟨s, [], []⟩

/-- The `daysLeft := int(time.Until(expDate).Hours() / 24)` computation of
`handleExpiry`: the signed day count truncated toward zero (Go's `int`
conversion truncates). -/
def daysLeftOf (now expDate : Int) : Int := Int.tdiv (expDate - now) nsPerDay

/-- Embedding of `handleExpiry` (main.go / Processor.handleExpiry):
when `daysLeft <= threshold` and `NotifiedExpiry` is not yet set, notify,
set the flag and persist; otherwise do nothing. -/
def handleExpiry (threshold now expDate : Int) (s : DomainState) : StepResult :=
  let daysLeft := daysLeftOf now expDate
  if daysLeft ≤ threshold ∧ s.notifiedExpiry = false then
    let s2 := { s with notifiedExpiry := true }
    ⟨s2, [Note.expiry daysLeft], [s2]⟩
  else
    ⟨s, [], []⟩

/-- The `hasValidExpiration` test of `processDomain`:
`!state.Expiration.IsZero() && state.Expiration.After(time.Now())`. -/
def hasValidExpiration (now : Int) (s : DomainState) : Bool :=
  !(s.expiration == 0) && decide (now < s.expiration)

/-- Result of `processDomain`: final in-memory state, notifications,
persisted states, and whether the WHOIS retrieval chain was invoked. -/
structure ProcResult where
  state : DomainState
  notes : List Note
  saves : List DomainState
  whoisCalled : Bool
deriving DecidableEq, Repr

/-- Embedding of `processDomain` (main.go / Processor.ProcessDomain) for one
loaded state `s`.  The DNS probe outcome is `dns` (`none` models a non-nil
error from `checkAvailable`, `some b` a definitive availability answer); the
outcome of the whole WHOIS retrieval chain (`retryWHOIS` + WHOIS parse +
`parseExpiration`) is `whois` (`none` models any failure in the chain). -/
def processDomain (threshold now : Int) (dns : Option Bool) (whois : Option Int)
    (s : DomainState) : ProcResult :=
  if dns = some true then
    let r := handleAvailable s
    ⟨r.state, r.notes, r.saves, false⟩
  else if !(hasValidExpiration now s) then
    match whois with
    | none => ⟨s, [], [], true⟩
    | some expDate =>
      let s1 := { s with expiration := expDate }
      let r := handleExpiry threshold now expDate s1
      ⟨r.state, r.notes, s1 :: r.saves, true⟩
  else
    let r := handleExpiry threshold now s.expiration s
    ⟨r.state, r.notes, r.saves, false⟩

/-- Iterating the available-domain path (`handleAvailable`) `n` times on a
state, concatenating the notifications emitted along the way. -/
def iterAvailable : Nat → DomainState → DomainState × List Note
  | 0, s => (s, [])
  | n + 1, s =>
    let r := handleAvailable s
    let rest := iterAvailable n r.state
    (rest.1, r.notes ++ rest.2)

/-! ### DNS availability probe -/

/-- The 16-bit big-endian answer count read by `parseSOAResponse` from bytes
6 and 7 of the response (`binary.BigEndian.Uint16(response[6:8])`). -/
def ancountOf (resp : List Nat) : Nat := resp.getD 6 0 * 256 + resp.getD 7 0

/-- Embedding of `parseSOAResponse`: a response shorter than the 12-byte
header is an error; otherwise report whether the answer count is nonzero. -/
def parseSOAResponse (resp : List Nat) : Except String Bool :=
  if resp.length < 12 then Except.error "response too short"
  else Except.ok (decide (0 < ancountOf resp))

/-- Outcome of the external steps `checkAvailable` performs, in source
order: reading the resolver configuration (`getNameserver` returning a
non-nil error), dialing the UDP socket, writing the query, reading the
reply (covering timeouts, which surface as read/write errors), or receiving
a reply datagram with the given bytes. -/
inductive DNSEnv where
  | nsFail
  | dialFail
  | writeFail
  | readFail
  | recv (resp : List Nat)
deriving DecidableEq, Repr

/-- Embedding of `checkAvailable` (pkg/dns `IsAvailable`): the Go pair
`(bool, error)`, with the error modelled as `Option String`.  Every failure
branch of the source returns `false` together with a non-nil error; on a
successfully parsed reply the domain is available iff there is no SOA
answer. -/
def checkAvailable (env : DNSEnv) : Bool × Option String :=
  match env with
  | .nsFail => (false, some "failed to read DNS config")
  | .dialFail => (false, some "failed to connect to DNS server")
  | .writeFail => (false, some "failed to send DNS query")
  | .readFail => (false, some "failed to receive DNS response")
  | .recv resp =>
    match parseSOAResponse resp with
    | .error e => (false, some ("failed to parse DNS response: " ++ e))
    | .ok hasSOA => (!hasSOA, none)

/-- How `processDomain` consumes the `(bool, error)` pair returned by the
probe: a non-nil error means the availability answer is unknown (`none`). -/
def dnsInput (r : Bool × Option String) : Option Bool :=
  match r.2 with
  | some _ => none
  | none => some r.1

/-- The failing probes of the error-handling claim: every transport-level
failure, and a received reply whose header is malformed (shorter than the
12-byte fixed header). -/
def envFailing : DNSEnv → Prop
  | .recv resp => resp.length < 12
  | _ => True

/-! ### DNS query construction -/

/-- The fixed 12-byte DNS header of `createDNSQuery`: ID `0x0001`,
standard-query flags `0x0100`, QDCOUNT 1, ANCOUNT 0, NSCOUNT 0, ARCOUNT 0. -/
def dnsHeader : List Nat := [0, 1, 1, 0, 0, 1, 0, 0, 0, 0, 0, 0]

/-- Go's `strings.Split(domain, ".")` for the single-character separator
`"."`, on the character-list view of strings. -/
def splitOnDot : List Char → List (List Char)
  | [] => [[]]
  | '.' :: cs => [] :: splitOnDot cs
  | c :: cs =>
    match splitOnDot cs with
    | [] => [[c]]
    | h :: t => (c :: h) :: t

/-- The domain name encoded as length-prefixed labels, as in the source:
split on `"."`, and for each label append `byte(len(label))` followed by the
label's bytes (domains are ASCII, so a character's code point is its byte). -/
def encodeLabels (domain : List Char) : List Nat :=
  ((splitOnDot domain).map fun label =>
    let bs := label.map Char.toNat
    (bs.length % 256) :: bs).flatten

/-- Big-endian 16-bit encoding (`binary.BigEndian.PutUint16`). -/
def u16be (x : Nat) : List Nat := [x / 256 % 256, x % 256]

/-- Embedding of `createDNSQuery`: header, length-prefixed labels,
terminating zero label, 2-byte QTYPE, and the 2-byte IN class `0x0001`. -/
def createDNSQuery (domain : List Char) (recordType : Nat) : List Nat :=
  dnsHeader ++ encodeLabels domain ++ [0] ++ u16be recordType ++ [0, 1]

/-! ### WHOIS retry loop -/

/-- An observable event of the retry loop: performing transport attempt `i`,
or sleeping for `d` nanoseconds. -/
inductive REvent where
  | att (i : Nat)
  | sleep (d : Int)
deriving DecidableEq, Repr

/-- The loop body of `retryWHOIS` / `QueryWithRetries`, with `fuel` the
remaining iterations and `i` the current 0-indexed attempt number.  The
backoff variable at iteration `i` is `b * 2 ^ i` (it starts at `cfg.Backoff`
and doubles each iteration); `attempt i` is the outcome of the `i`-th
`whois.Whois` transport call (`none` = non-nil error) and `jit i` the jitter
drawn for the sleep that follows a failed attempt `i`. -/
def retryLoop (attempt : Nat → Option String) (jit : Nat → Int) (b : Int) :
    Nat → Nat → Option String × List REvent
  | 0, _ => (none, [])
  | fuel + 1, i =>
    match attempt i with
    | some raw => (some raw, [REvent.att i])
    | none =>
      let r := retryLoop attempt jit b fuel (i + 1)
      (r.1, REvent.att i :: REvent.sleep (b * 2 ^ i + jit i) :: r.2)

/-- Embedding of `retryWHOIS` (pkg/whois `QueryWithRetries`): run the loop
for `retries` iterations starting at attempt 0.  The result is the raw WHOIS
text on first transport success (`none` models the `""` failure return),
together with the trace of attempts and sleeps. -/
def retryWHOIS (retries : Nat) (b : Int) (attempt : Nat → Option String)
    (jit : Nat → Int) : Option String × List REvent :=
  retryLoop attempt jit b retries 0

/-- Number of transport attempts recorded in a trace. -/
def countAtt (tr : List REvent) : Nat :=
  tr.countP fun e => match e with | .att _ => true | .sleep _ => false

/-- Number of backoff sleeps recorded in a trace. -/
def countSleep (tr : List REvent) : Nat :=
  tr.countP fun e => match e with | .att _ => false | .sleep _ => true

/-- The event immediately preceding the first occurrence of attempt `i` in a
trace (`none` when attempt `i` is absent or is the very first event). -/
def precedes : List REvent → Nat → Option REvent
  | e1 :: e2 :: rest, i =>
    if e2 = REvent.att i then some e1 else precedes (e2 :: rest) i
  | _, _ => none

/-! ### State-file cleanup -/

/-- A directory entry as `cleanupState` sees it: its file name (as a
character list), and whether its content deserializes as the `DomainState`
JSON record (the `isAppGeneratedFile` check; JSON decoding itself is
external, so it is modelled by this boolean). -/
structure SFile where
  name : List Char
  parses : Bool
deriving DecidableEq, Repr

/-- Go's `strings.HasSuffix` on the character-list view of strings. -/
def endsWithL (s suff : List Char) : Bool :=
  decide (suff.length ≤ s.length) && (s.drop (s.length - suff.length) == suff)

/-- Go's `strings.TrimSuffix`: drop the suffix if present, else unchanged. -/
def trimSuffixL (s suff : List Char) : List Char :=
  if endsWithL s suff then s.take (s.length - suff.length) else s

/-- Go's `strings.ReplaceAll(d, ".", "_")`: with a one-character pattern and
replacement this is a character map. -/
def dotsToUnderscores (s : List Char) : List Char :=
  s.map fun c => if c = '.' then '_' else c

/-- ASCII whitespace, the fragment of Go's `strings.TrimSpace` cut set
relevant to domain lists. -/
def isSpaceCh (c : Char) : Bool :=
  c = ' ' || c = '\t' || c = '\n' || c = '\r'

/-- Go's `strings.TrimSpace` (ASCII fragment). -/
def trimSpaceL (s : List Char) : List Char :=
  ((s.dropWhile isSpaceCh).reverse.dropWhile isSpaceCh).reverse

/-- The keep-set built by `cleanupState`: each configured domain, trimmed,
with `"."` replaced by `"_"`. -/
def keepKeys (domains : List (List Char)) : List (List Char) :=
  domains.map fun d => dotsToUnderscores (trimSpaceL d)

/-- The `.json` extension. -/
def jsonExt : List Char := ['.', 'j', 's', 'o', 'n']

/-- The per-file decision of `cleanupState`'s loop: files without the
`.json` extension are skipped; a `.json` file whose base name is a current
domain key is kept; otherwise the file is removed exactly when
`isAppGeneratedFile` holds (its content deserializes as `DomainState`). -/
def shouldDelete (keys : List (List Char)) (f : SFile) : Bool :=
  if !(endsWithL f.name jsonExt) then false
  else if keys.contains (trimSuffixL f.name jsonExt) then false
  else f.parses

/-- Embedding of `cleanupState`: the files removed and the files left in
place, given the configured domain list and the directory contents. -/
def cleanupState (domains : List (List Char)) (files : List SFile) :
    List SFile × List SFile :=
  (files.filter (shouldDelete (keepKeys domains)),
   files.filter fun f => !(shouldDelete (keepKeys domains) f))

/-! ### Timestamps: RFC3339 parsing and the JSON round trip

`parseExpiration` and the state file's JSON encoding both defer to Go's
`time` package.  `time.Parse(time.RFC3339, ·)` and `time.Time.UnmarshalJSON`
parse the broken-down fields of an RFC3339 string (with an optional
fractional-second part and a `Z` / `±hh:mm` offset), and
`time.Time.MarshalJSON` formats them back with the `RFC3339Nano` layout
(fraction with trailing zeros removed, omitted entirely when zero).  The
broken-down representation is modelled by `GoTime` and the strings by
`List Char`. -/

/-- A broken-down `time.Time` instant: calendar date, clock time,
nanoseconds, and the zone offset in minutes east of UTC (RFC3339 offsets
are whole minutes). -/
structure GoTime where
  year : Nat
  month : Nat
  day : Nat
  hour : Nat
  minute : Nat
  second : Nat
  nsec : Nat
  offset : Int
deriving DecidableEq, Repr

/-- Value of a decimal digit character, if it is one. -/
def digitVal? (c : Char) : Option Nat :=
  if '0' ≤ c ∧ c ≤ '9' then some (c.toNat - '0'.toNat) else none

/-- Read exactly `n` decimal digits into `acc`, returning the value and the
rest of the input (Go's fixed-width `getnum` for zero-padded fields). -/
def readNAux (acc : Nat) : Nat → List Char → Option (Nat × List Char)
  | 0, cs => some (acc, cs)
  | _ + 1, [] => none
  | n + 1, c :: cs =>
    match digitVal? c with
    | some d => readNAux (acc * 10 + d) n cs
    | none => none

/-- Read exactly `n` decimal digits. -/
def readN (n : Nat) (cs : List Char) : Option (Nat × List Char) :=
  readNAux 0 n cs

/-- Consume one expected character. -/
def expectCh (c : Char) : List Char → Option (List Char)
  | [] => none
  | x :: xs => if x = c then some xs else none

/-- Take the maximal run of leading digits, as digit values. -/
def takeDigits : List Char → List Nat × List Char
  | [] => ([], [])
  | c :: cs =>
    match digitVal? c with
    | some d =>
      let r := takeDigits cs
      (d :: r.1, r.2)
    | none => ([], c :: cs)

/-- Decimal value of a digit list (most significant first). -/
def digitsVal (ds : List Nat) : Nat := ds.foldl (fun a d => a * 10 + d) 0

/-- Nanosecond value of a fractional-second digit run, as Go's
`parseNanoseconds` computes it: at most the first nine digits count, scaled
so that a `k`-digit fraction (`k ≤ 9`) denotes `value * 10 ^ (9 - k)`. -/
def fracVal (ds : List Nat) : Nat :=
  let t := ds.take 9
  digitsVal t * 10 ^ (9 - t.length)

/-- The optional fractional-second part: a comma or period followed by at
least one digit.  When absent the input is left untouched (so that a stray
separator makes the subsequent offset parse fail, as in Go). -/
def parseFrac (cs : List Char) : Nat × List Char :=
  match cs with
  | c :: c2 :: _ =>
    if (c = '.' ∨ c = ',') ∧ (digitVal? c2).isSome then
      let r := takeDigits (cs.drop 1)
      (fracVal r.1, r.2)
    else (0, cs)
  | _ => (0, cs)

/-- The RFC3339 zone suffix: `Z` for UTC or `±hh:mm`, returned in minutes. -/
def parseOffset (cs : List Char) : Option (Int × List Char) :=
  match cs with
  | [] => none
  | c :: rest =>
    if c = 'Z' then some (0, rest)
    else if c = '+' ∨ c = '-' then
      match readN 2 rest with
      | none => none
      | some (hh, r2) =>
        match expectCh ':' r2 with
        | none => none
        | some r3 =>
          match readN 2 r3 with
          | none => none
          | some (mm, r4) =>
            if hh ≤ 23 ∧ mm ≤ 59 then
              some
                (if c = '-' then -(((hh * 60 + mm : Nat) : Int))
                 else ((hh * 60 + mm : Nat) : Int), r4)
            else none
    else none

/-- Gregorian leap-year test. -/
def isLeap (y : Nat) : Bool :=
  decide ((y % 4 = 0 ∧ y % 100 ≠ 0) ∨ y % 400 = 0)

/-- Days in a month, leap years included. -/
def daysInMonth (y m : Nat) : Nat :=
  match m with
  | 1 => 31
  | 2 => if isLeap y then 29 else 28
  | 3 => 31
  | 4 => 30
  | 5 => 31
  | 6 => 30
  | 7 => 31
  | 8 => 31
  | 9 => 30
  | 10 => 31
  | 11 => 30
  | 12 => 31
  | _ => 0

/-- Go's range validation of a parsed calendar date. -/
def validDate (y m d : Nat) : Bool :=
  decide (1 ≤ m ∧ m ≤ 12 ∧ 1 ≤ d ∧ d ≤ daysInMonth y m)

/-- Go's range validation of a parsed clock time. -/
def validClock (h mi s : Nat) : Bool :=
  decide (h ≤ 23 ∧ mi ≤ 59 ∧ s ≤ 59)

/-- The `yyyy-mm-dd` prelude shared by both layouts: a 4-digit year and
2-digit month and day separated by dashes, returning the rest of the
input. -/
def parseYMD (cs : List Char) : Option (Nat × Nat × Nat × List Char) :=
  match readN 4 cs with
  | none => none
  | some (y, r1) =>
    match expectCh '-' r1 with
    | none => none
    | some r2 =>
      match readN 2 r2 with
      | none => none
      | some (mo, r3) =>
        match expectCh '-' r3 with
        | none => none
        | some r4 =>
          match readN 2 r4 with
          | none => none
          | some (d, r5) => some (y, mo, d, r5)

/-- The `hh:mm:ss` clock part of the RFC3339 layout. -/
def parseHMS (cs : List Char) : Option (Nat × Nat × Nat × List Char) :=
  match readN 2 cs with
  | none => none
  | some (h, r1) =>
    match expectCh ':' r1 with
    | none => none
    | some r2 =>
      match readN 2 r2 with
      | none => none
      | some (mi, r3) =>
        match expectCh ':' r3 with
        | none => none
        | some r4 =>
          match readN 2 r4 with
          | none => none
          | some (s, r5) => some (h, mi, s, r5)

/-- Model of `time.Parse(time.RFC3339, ·)` (also used by
`time.Time.UnmarshalJSON`): full-precision timestamp with zone,
`yyyy-mm-ddThh:mm:ss[.fraction](Z|±hh:mm)`, with Go's range checks, and
nothing may follow. -/
def parseRFC3339 (cs : List Char) : Option GoTime :=
  match parseYMD cs with
  | none => none
  | some (y, mo, d, r5) =>
    match expectCh 'T' r5 with
    | none => none
    | some r6 =>
      match parseHMS r6 with
      | none => none
      | some (h, mi, s, r11) =>
        let fr := parseFrac r11
        match parseOffset fr.2 with
        | none => none
        | some (off, r13) =>
          if r13 = [] ∧ validDate y mo d ∧ validClock h mi s then
            some ⟨y, mo, d, h, mi, s, fr.1, off⟩
          else none

/-- Model of `time.Parse("2006-01-02", ·)`: a bare calendar date, implying
midnight UTC. -/
def parseDateOnly (cs : List Char) : Option GoTime :=
  match parseYMD cs with
  | none => none
  | some (y, mo, d, r5) =>
    if r5 = [] ∧ validDate y mo d then
      some ⟨y, mo, d, 0, 0, 0, 0, 0⟩
    else none

/-- Embedding of `parseExpiration` (pkg/whois `ParseExpiration`): try strict
RFC3339 first and return its result on success; otherwise fall back to the
date-only format, whose error (if any) is the error of the whole call. -/
def parseExpiration (cs : List Char) : Option GoTime :=
  match parseRFC3339 cs with
  | some t => some t
  | none => parseDateOnly cs

/-! #### Formatting (`RFC3339Nano`, as used by `time.Time.MarshalJSON`) -/

/-- The decimal digit character for `d`. -/
def digitChar (d : Nat) : Char := Char.ofNat ('0'.toNat + d)

/-- The two least-significant decimal digits of `x`. -/
def pad2digits (x : Nat) : List Nat := [x / 10 % 10, x % 10]

/-- The four least-significant decimal digits of `x`. -/
def pad4digits (x : Nat) : List Nat :=
  [x / 1000 % 10, x / 100 % 10, x / 10 % 10, x % 10]

/-- The nine least-significant decimal digits of `x`. -/
def pad9digits (x : Nat) : List Nat :=
  [x / 100000000 % 10, x / 10000000 % 10, x / 1000000 % 10,
   x / 100000 % 10, x / 10000 % 10, x / 1000 % 10,
   x / 100 % 10, x / 10 % 10, x % 10]

/-- Zero-padded two-digit decimal. -/
def pad2 (x : Nat) : List Char := (pad2digits x).map digitChar

/-- Zero-padded four-digit decimal. -/
def pad4 (x : Nat) : List Char := (pad4digits x).map digitChar

/-- Remove trailing zero digits. -/
def stripZeros (ds : List Nat) : List Nat :=
  (ds.reverse.dropWhile fun d => d == 0).reverse

/-- The `RFC3339Nano` fractional-second part: empty when the nanosecond
field is zero, otherwise a period followed by the nine-digit fraction with
trailing zeros removed. -/
def fracChars (ns : Nat) : List Char :=
  if ns = 0 then [] else '.' :: (stripZeros (pad9digits ns)).map digitChar

/-- The `Z07:00` zone suffix: `Z` for UTC, else sign and `hh:mm`. -/
def formatOffset (off : Int) : List Char :=
  if off = 0 then ['Z']
  else
    (if off < 0 then '-' else '+') ::
      (pad2 (off.natAbs / 60) ++ ':' :: pad2 (off.natAbs % 60))

/-- Model of formatting with `time.RFC3339Nano`, the layout
`time.Time.MarshalJSON` uses for the `expiration` field. -/
def formatRFC3339Nano (t : GoTime) : List Char :=
  pad4 t.year ++ '-' :: pad2 t.month ++ '-' :: pad2 t.day ++
    'T' :: pad2 t.hour ++ ':' :: pad2 t.minute ++ ':' :: pad2 t.second ++
    fracChars t.nsec ++ formatOffset t.offset

/-! #### The state file -/

/-- The JSON object `saveState` writes: the `expiration` field's RFC3339
text and the two notification booleans. -/
structure StateFileContent where
  expirationText : List Char
  notifiedExpiry : Bool
  notifiedAvailable : Bool
deriving DecidableEq, Repr

/-- A `DomainState` with its expiration as a broken-down instant, as the
serialization layer sees it. -/
structure StoredState where
  expiration : GoTime
  notifiedExpiry : Bool
  notifiedAvailable : Bool
deriving DecidableEq, Repr

/-- `time.Time.MarshalJSON` refuses years outside `[0, 9999]` (the year is
a `Nat` here, so only the upper bound remains). -/
def marshalOK (t : GoTime) : Bool := decide (t.year ≤ 9999)

/-- Embedding of `saveState`: serialize the record; a marshal error means
nothing is written (`none`). -/
def saveState (st : StoredState) : Option StateFileContent :=
  if marshalOK st.expiration then
    some ⟨formatRFC3339Nano st.expiration, st.notifiedExpiry, st.notifiedAvailable⟩
  else none

/-- Embedding of `loadState`'s deserialization of an existing file: parse
the `expiration` text as RFC3339 and take the two flags. -/
def loadState (c : StateFileContent) : Option StoredState :=
  (parseRFC3339 c.expirationText).map fun t =>
    ⟨t, c.notifiedExpiry, c.notifiedAvailable⟩

/-- Well-formedness of a broken-down instant: the field invariants every
`time.Time` satisfies (valid calendar date, valid clock time, nanoseconds
below one second, zone offset within `±23:59`). -/
def WFTime (t : GoTime) : Prop :=
  validDate t.year t.month t.day = true ∧
    validClock t.hour t.minute t.second = true ∧
    t.nsec < 1000000000 ∧ t.offset.natAbs ≤ 23 * 60 + 59

/-- Monotonicity of the two notification flags from one state to another:
a flag that is set stays set. -/
def flagsMono (s t : DomainState) : Prop :=
  (s.notifiedAvailable = true → t.notifiedAvailable = true) ∧
    (s.notifiedExpiry = true → t.notifiedExpiry = true)

/-! ## Theorems -/

theorem handleAvailable_of_notified (s : DomainState)
    (h : s.notifiedAvailable = true) : handleAvailable s = ⟨s, [], []⟩ := by
  simp [handleAvailable, h]

theorem handleAvailable_mono (s : DomainState) :
    flagsMono s (handleAvailable s).state := by
  unfold handleAvailable flagsMono
  by_cases h : s.notifiedAvailable = true <;> simp [h]

theorem handleExpiry_mono (threshold now expDate : Int) (s : DomainState) :
    flagsMono s (handleExpiry threshold now expDate s).state := by
  unfold handleExpiry flagsMono
  by_cases h : daysLeftOf now expDate ≤ threshold ∧ s.notifiedExpiry = false <;>
    simp [h]

theorem processDomain_mono (threshold now : Int) (dns : Option Bool)
    (whois : Option Int) (s : DomainState) :
    flagsMono s (processDomain threshold now dns whois s).state := by
  unfold processDomain
  by_cases hd : dns = some true
  · simpa [hd] using handleAvailable_mono s
  · rw [if_neg hd]
    by_cases hv : hasValidExpiration now s
    · simpa [hv] using handleExpiry_mono threshold now s.expiration s
    · cases whois with
      | none => simp [hv, flagsMono]
      | some e =>
        have h := handleExpiry_mono threshold now e { s with expiration := e }
        simp only [hv, Bool.not_false, if_true]
        exact ⟨fun ha => h.1 ha, fun he => h.2 he⟩

theorem iterAvailable_of_notified (n : Nat) (s : DomainState)
    (h : s.notifiedAvailable = true) : (iterAvailable n s).2 = [] := by
  induction n generalizing s with
  | zero => rfl
  | succ n ih =>
    simp [iterAvailable, handleAvailable_of_notified s h, ih s h]

/-- C1: the notification flags are monotone under `handleAvailable`,
`handleExpiry` and `processDomain` — no processing operation resets a flag
that is `true` — and from a state with `notifiedAvailable = true` the
available-domain path, run any number of times, emits no availability
notification. -/
theorem C1_flags_monotone (threshold now expDate : Int) (dns : Option Bool)
    (whois : Option Int) (s : DomainState) (n : Nat) :
    flagsMono s (handleAvailable s).state ∧
      flagsMono s (handleExpiry threshold now expDate s).state ∧
      flagsMono s (processDomain threshold now dns whois s).state ∧
      (s.notifiedAvailable = true → (iterAvailable n s).2 = []) :=
  ⟨handleAvailable_mono s, handleExpiry_mono threshold now expDate s,
    processDomain_mono threshold now dns whois s,
    fun h => iterAvailable_of_notified n s h⟩

/-- Witness for C1 at a concrete already-notified state: five reruns of the
available path notify nobody, and the flags of a fully set state survive a
`processDomain` run. -/
theorem C1_flags_monotone_witness :
    (iterAvailable 5 ⟨0, false, true⟩).2 = [] ∧
      ((processDomain 30 0 (some true) none ⟨0, true, true⟩).state.notifiedAvailable
        = true) :=
  ⟨(C1_flags_monotone 30 0 0 (some true) none ⟨0, false, true⟩ 5).2.2.2 rfl,
    (C1_flags_monotone 30 0 0 (some true) none ⟨0, true, true⟩ 5).2.2.1.1 rfl⟩

/-- C2 counterexample: with the expiration 1.5 days in the past, threshold
`-2` and `notifiedExpiry = false`, the floor of the day count is `-2 ≤ -2`,
so the claim as stated demands a notification — but `handleExpiry` (whose
Go `int` conversion truncates `-1.5` toward zero, to `-1 > -2`) does not
notify and leaves the state unchanged. -/
theorem C2_counterexample :
    Int.fdiv ((-129600000000000 : Int) - 0) nsPerDay ≤ -2 ∧
      (⟨0, false, false⟩ : DomainState).notifiedExpiry = false ∧
      (handleExpiry (-2) 0 (-129600000000000) ⟨0, false, false⟩).notes = [] ∧
      (handleExpiry (-2) 0 (-129600000000000) ⟨0, false, false⟩).state =
        ⟨0, false, false⟩ := by
  refine ⟨by decide, rfl, ?_, ?_⟩ <;> decide

/-- C2 (amended: days-until-expiry is `(expiration − now)` in whole days
truncated toward zero, as Go's `int` conversion does, rather than floored):
`handleExpiry` notifies, sets `notifiedExpiry` and persists exactly when
that day count is at most the threshold and `notifiedExpiry` is false, and
otherwise leaves the state unchanged, emitting and persisting nothing. -/
theorem C2_expiry_exact (threshold now expDate : Int) (s : DomainState) :
    daysLeftOf now expDate = Int.tdiv (expDate - now) nsPerDay ∧
      ((daysLeftOf now expDate ≤ threshold ∧ s.notifiedExpiry = false) →
        handleExpiry threshold now expDate s =
          ⟨{ s with notifiedExpiry := true },
            [Note.expiry (daysLeftOf now expDate)],
            [{ s with notifiedExpiry := true }]⟩) ∧
      (¬(daysLeftOf now expDate ≤ threshold ∧ s.notifiedExpiry = false) →
        handleExpiry threshold now expDate s = ⟨s, [], []⟩) := by
  refine ⟨rfl, fun h => ?_, fun h => ?_⟩ <;> simp [handleExpiry, h]

/-- Witness for C2: an expiration 15 days out with threshold 30 notifies
once, sets the flag and persists; a second check of the resulting state and
a 60-days-out expiration with threshold 30 both do nothing. -/
theorem C2_expiry_exact_witness :
    handleExpiry 30 0 1296000000000000 ⟨1296000000000000, false, false⟩ =
      ⟨⟨1296000000000000, true, false⟩, [Note.expiry 15],
        [⟨1296000000000000, true, false⟩]⟩ ∧
      handleExpiry 30 0 1296000000000000 ⟨1296000000000000, true, false⟩ =
        ⟨⟨1296000000000000, true, false⟩, [], []⟩ ∧
      handleExpiry 30 0 5184000000000000 ⟨5184000000000000, false, false⟩ =
        ⟨⟨5184000000000000, false, false⟩, [], []⟩ :=
  ⟨(C2_expiry_exact 30 0 1296000000000000 ⟨1296000000000000, false, false⟩).2.1
      ⟨by decide, rfl⟩,
    (C2_expiry_exact 30 0 1296000000000000 ⟨1296000000000000, true, false⟩).2.2
      (by decide),
    (C2_expiry_exact 30 0 5184000000000000 ⟨5184000000000000, false, false⟩).2.2
      (by decide)⟩

/-- C3 counterexample: with a zero-valued state the cached expiration is
not valid, so the claim as stated demands a WHOIS call on every run — but
when the DNS probe definitively reports the domain available,
`processDomain` takes the availability path and returns without invoking
the WHOIS chain. -/
theorem C3_counterexample :
    hasValidExpiration 0 ⟨0, false, false⟩ = false ∧
      (processDomain 30 0 (some true) (some 5) ⟨0, false, false⟩).whoisCalled
        = false := by
  constructor <;> decide

/-- C3 (amended: restricted to runs in which the DNS step did not
definitively report the domain available, since the availability path
returns before the WHOIS stage): `processDomain` invokes the WHOIS chain
exactly when the cached expiration is not valid (zero, or not strictly
after `now`); on chain failure state, saves and notifications are all
untouched; on chain success the state's expiration is overwritten and that
state is the first one persisted, before any expiry notification; with a
valid cached expiration there is no WHOIS call and the cached value feeds
the expiry step unchanged. -/
theorem C3_whois_gate (threshold now : Int) (dns : Option Bool)
    (whois : Option Int) (s : DomainState) (hdns : dns ≠ some true) :
    (processDomain threshold now dns whois s).whoisCalled
        = !(hasValidExpiration now s) ∧
      (hasValidExpiration now s = false → whois = none →
        processDomain threshold now dns whois s = ⟨s, [], [], true⟩) ∧
      (∀ e, hasValidExpiration now s = false → whois = some e →
        (processDomain threshold now dns whois s).state.expiration = e ∧
          (processDomain threshold now dns whois s).saves.head?
            = some { s with expiration := e } ∧
          (processDomain threshold now dns whois s).notes
            = (handleExpiry threshold now e { s with expiration := e }).notes) ∧
      (hasValidExpiration now s = true →
        (processDomain threshold now dns whois s).state.expiration
            = s.expiration ∧
          (processDomain threshold now dns whois s).notes
            = (handleExpiry threshold now s.expiration s).notes) := by
  cases hv : hasValidExpiration now s with
  | false =>
    cases whois with
    | none =>
      refine ⟨?_, fun _ _ => ?_, fun e _ he => by simp at he, fun h => ?_⟩
      · simp [processDomain, if_neg hdns, hv]
      · simp [processDomain, if_neg hdns, hv]
      · exact absurd h (by decide)
    | some e =>
      have hstate : (handleExpiry threshold now e
          { s with expiration := e }).state.expiration = e := by
        unfold handleExpiry
        by_cases h : daysLeftOf now e ≤ threshold ∧ s.notifiedExpiry = false <;>
          simp [h]
      refine ⟨?_, fun _ h => by simp at h, fun e2 _ he => ?_, fun h => ?_⟩
      · simp [processDomain, if_neg hdns, hv]
      · obtain rfl : e = e2 := by simpa using he
        refine ⟨?_, ?_, ?_⟩ <;> simp [processDomain, if_neg hdns, hv, hstate]
      · exact absurd h (by decide)
  | true =>
    have hstate : (handleExpiry threshold now s.expiration s).state.expiration
        = s.expiration := by
      unfold handleExpiry
      by_cases h : daysLeftOf now s.expiration ≤ threshold ∧
        s.notifiedExpiry = false <;> simp [h]
    refine ⟨?_, fun h => ?_, fun e2 h _ => ?_, fun _ => ⟨?_, ?_⟩⟩
    · simp [processDomain, if_neg hdns, hv]
    · exact absurd h (by decide)
    · exact absurd h (by decide)
    · simp [processDomain, if_neg hdns, hv, hstate]
    · simp [processDomain, if_neg hdns, hv]

/-- Witness for C3 at concrete inputs: a DNS error with an invalid cache
calls WHOIS, and on success the freshly parsed expiration is both stored
and persisted first. -/
theorem C3_whois_gate_witness :
    (processDomain 30 0 none (some 1296000000000000) ⟨0, false, false⟩).whoisCalled
        = !(hasValidExpiration 0 ⟨0, false, false⟩) ∧
      (processDomain 30 0 none (some 1296000000000000)
          ⟨0, false, false⟩).state.expiration = 1296000000000000 ∧
      (processDomain 30 0 none (some 1296000000000000)
          ⟨0, false, false⟩).saves.head?
        = some ⟨1296000000000000, false, false⟩ :=
  ⟨(C3_whois_gate 30 0 none (some 1296000000000000) ⟨0, false, false⟩
      (by decide)).1,
    ((C3_whois_gate 30 0 none (some 1296000000000000) ⟨0, false, false⟩
      (by decide)).2.2.1 1296000000000000 (by decide) rfl).1,
    ((C3_whois_gate 30 0 none (some 1296000000000000) ⟨0, false, false⟩
      (by decide)).2.2.1 1296000000000000 (by decide) rfl).2.1⟩

theorem shouldDelete_eq_true (keys : List (List Char)) (f : SFile) :
    shouldDelete keys f = true ↔
      endsWithL f.name jsonExt = true ∧ f.parses = true ∧
        keys.contains (trimSuffixL f.name jsonExt) = false := by
  unfold shouldDelete
  cases h1 : endsWithL f.name jsonExt <;>
    cases h2 : keys.contains (trimSuffixL f.name jsonExt) <;>
    cases h3 : f.parses <;> simp

/-- C4 counterexample: the file `stale.txt` deserializes as a `DomainState`
record and its name stripped of the extension is absent from the (empty)
domain list, so the claim as stated demands it be deleted — but
`cleanupState` only considers files with the `.json` extension, and
preserves it. -/
theorem C4_counterexample :
    (⟨"stale.txt".toList, true⟩ : SFile).parses = true ∧
      (keepKeys []).contains (trimSuffixL "stale.txt".toList jsonExt) = false ∧
      (cleanupState [] [⟨"stale.txt".toList, true⟩]).1 = [] ∧
      (cleanupState [] [⟨"stale.txt".toList, true⟩]).2
        = [⟨"stale.txt".toList, true⟩] := by
  refine ⟨rfl, ?_, ?_, ?_⟩ <;> decide

/-- C4 (amended: the deleted files are exactly those that carry the `.json`
extension, in addition to deserializing as the three-field `DomainState`
record and having a derived domain key absent from the current domain
list): `cleanupState` deletes exactly those files and preserves every other
file, and in particular never deletes a file whose content does not
deserialize as `DomainState`, nor any file without the `.json` extension. -/
theorem C4_cleanup_exact (domains : List (List Char)) (files : List SFile)
    (f : SFile) :
    (f ∈ (cleanupState domains files).1 ↔
        f ∈ files ∧ endsWithL f.name jsonExt = true ∧ f.parses = true ∧
          (keepKeys domains).contains (trimSuffixL f.name jsonExt) = false) ∧
      (f ∈ (cleanupState domains files).2 ↔
        f ∈ files ∧ ¬(endsWithL f.name jsonExt = true ∧ f.parses = true ∧
          (keepKeys domains).contains (trimSuffixL f.name jsonExt) = false)) ∧
      (f.parses = false → f ∉ (cleanupState domains files).1) := by
  refine ⟨?_, ?_, ?_⟩
  · rw [cleanupState]
    simp only [List.mem_filter, shouldDelete_eq_true, and_congr_right_iff]
  · rw [cleanupState]
    simp only [List.mem_filter, Bool.not_eq_true']
    rw [← Bool.not_eq_true (shouldDelete (keepKeys domains) f),
      shouldDelete_eq_true]
  · intro hp hmem
    rw [cleanupState] at hmem
    simp only [List.mem_filter, shouldDelete_eq_true] at hmem
    rw [hp] at hmem
    exact absurd hmem.2.2.1 (by decide)

/-- Witness for C4 on a concrete directory: the orphaned well-formed
`.json` file is deleted; the still-configured file, the malformed `.json`
file and the well-formed non-`.json` file are all preserved. -/
theorem C4_cleanup_exact_witness :
    (⟨"stale_net.json".toList, true⟩ : SFile) ∈
        (cleanupState ["a.com".toList]
          [⟨"a_com.json".toList, true⟩, ⟨"stale_net.json".toList, true⟩,
            ⟨"bad.json".toList, false⟩, ⟨"notes.txt".toList, true⟩]).1 ∧
      (⟨"a_com.json".toList, true⟩ : SFile) ∈
        (cleanupState ["a.com".toList]
          [⟨"a_com.json".toList, true⟩, ⟨"stale_net.json".toList, true⟩,
            ⟨"bad.json".toList, false⟩, ⟨"notes.txt".toList, true⟩]).2 ∧
      (⟨"bad.json".toList, false⟩ : SFile) ∉
        (cleanupState ["a.com".toList]
          [⟨"a_com.json".toList, true⟩, ⟨"stale_net.json".toList, true⟩,
            ⟨"bad.json".toList, false⟩, ⟨"notes.txt".toList, true⟩]).1 ∧
      (⟨"notes.txt".toList, true⟩ : SFile) ∈
        (cleanupState ["a.com".toList]
          [⟨"a_com.json".toList, true⟩, ⟨"stale_net.json".toList, true⟩,
            ⟨"bad.json".toList, false⟩, ⟨"notes.txt".toList, true⟩]).2 :=
  ⟨(C4_cleanup_exact ["a.com".toList]
        [⟨"a_com.json".toList, true⟩, ⟨"stale_net.json".toList, true⟩,
          ⟨"bad.json".toList, false⟩, ⟨"notes.txt".toList, true⟩]
        ⟨"stale_net.json".toList, true⟩).1.2 (by decide),
    (C4_cleanup_exact ["a.com".toList]
        [⟨"a_com.json".toList, true⟩, ⟨"stale_net.json".toList, true⟩,
          ⟨"bad.json".toList, false⟩, ⟨"notes.txt".toList, true⟩]
        ⟨"a_com.json".toList, true⟩).2.1.2 (by decide),
    (C4_cleanup_exact ["a.com".toList]
        [⟨"a_com.json".toList, true⟩, ⟨"stale_net.json".toList, true⟩,
          ⟨"bad.json".toList, false⟩, ⟨"notes.txt".toList, true⟩]
        ⟨"bad.json".toList, false⟩).2.2 rfl,
    (C4_cleanup_exact ["a.com".toList]
        [⟨"a_com.json".toList, true⟩, ⟨"stale_net.json".toList, true⟩,
          ⟨"bad.json".toList, false⟩, ⟨"notes.txt".toList, true⟩]
        ⟨"notes.txt".toList, true⟩).2.1.2 (by decide)⟩

/-- C5: for a response datagram at least as long as the 12-byte fixed
header, availability is decided purely from the 16-bit answer-count field
(bytes 6 and 7, big-endian): zero answers means available, nonzero means
not available, and two long-enough responses agreeing on that field get the
same answer; a response shorter than the fixed header is a parse error. -/
theorem C5_answer_count (resp resp2 : List Nat) :
    (12 ≤ resp.length →
        checkAvailable (DNSEnv.recv resp)
            = (decide (ancountOf resp = 0), none) ∧
          (checkAvailable (DNSEnv.recv resp) = (true, none) ↔
            ancountOf resp = 0)) ∧
      (12 ≤ resp.length → 12 ≤ resp2.length → ancountOf resp = ancountOf resp2 →
        checkAvailable (DNSEnv.recv resp) = checkAvailable (DNSEnv.recv resp2)) ∧
      (resp.length < 12 →
        parseSOAResponse resp = Except.error "response too short" ∧
          checkAvailable (DNSEnv.recv resp)
            = (false, some "failed to parse DNS response: response too short")) := by
  have key : ∀ r : List Nat, 12 ≤ r.length →
      checkAvailable (DNSEnv.recv r) = (decide (ancountOf r = 0), none) := by
    intro r hr
    have hlt : ¬(r.length < 12) := not_lt.mpr hr
    simp only [checkAvailable, parseSOAResponse, if_neg hlt]
    by_cases h : ancountOf r = 0 <;> simp [h, Nat.pos_iff_ne_zero]
  refine ⟨fun h => ⟨key resp h, ?_⟩, fun h h2 he => ?_, fun h => ?_⟩
  · rw [key resp h]
    by_cases hz : ancountOf resp = 0 <;> simp [hz]
  · rw [key resp h, key resp2 h2, he]
  · have : parseSOAResponse resp = Except.error "response too short" := by
      simp [parseSOAResponse, h]
    exact ⟨this, by simp [checkAvailable, this]⟩

/-- Witness for C5: a 12-byte header with answer count 0 is available, one
with answer count 1 is not, and an 11-byte response is a parse error. -/
theorem C5_answer_count_witness :
    checkAvailable (DNSEnv.recv [0, 1, 1, 0, 0, 1, 0, 0, 0, 0, 0, 0])
        = (true, none) ∧
      checkAvailable (DNSEnv.recv [0, 1, 1, 0, 0, 1, 0, 1, 0, 0, 0, 0])
        = (false, none) ∧
      parseSOAResponse [0, 1, 1, 0, 0, 1, 0, 0, 0, 0, 0]
        = Except.error "response too short" :=
  ⟨((C5_answer_count [0, 1, 1, 0, 0, 1, 0, 0, 0, 0, 0, 0] []).1
      (by decide)).2.mpr (by decide),
    by
      have := ((C5_answer_count [0, 1, 1, 0, 0, 1, 0, 1, 0, 0, 0, 0] []).1
        (by decide)).1
      simpa using this,
    ((C5_answer_count [0, 1, 1, 0, 0, 1, 0, 0, 0, 0, 0] []).2.2 (by decide)).1⟩

/-- C6: every failing probe (resolver-configuration failure, dial, write or
read/timeout failure, or a malformed header) makes `checkAvailable` return
availability `false` together with a non-nil error; `processDomain` treats
that error as unknown — the run is identical to one where DNS definitively
answered "not available": no availability notification, no abort, and the
cached-expiration/WHOIS stage is reached. -/
theorem C6_error_unknown (env : DNSEnv) (threshold now : Int)
    (whois : Option Int) (s : DomainState) (hf : envFailing env) :
    ((checkAvailable env).1 = false ∧ (checkAvailable env).2.isSome = true) ∧
      dnsInput (checkAvailable env) = none ∧
      processDomain threshold now (dnsInput (checkAvailable env)) whois s
        = processDomain threshold now (some false) whois s ∧
      (∀ note, note ∈ (processDomain threshold now
          (dnsInput (checkAvailable env)) whois s).notes → note ≠ Note.avail) := by
  have herr : (checkAvailable env).1 = false ∧ (checkAvailable env).2.isSome = true := by
    cases env with
    | recv resp =>
      have h : parseSOAResponse resp = Except.error "response too short" := by
        simp [parseSOAResponse, show resp.length < 12 from hf]
      simp [checkAvailable, h]
    | nsFail => simp [checkAvailable]
    | dialFail => simp [checkAvailable]
    | writeFail => simp [checkAvailable]
    | readFail => simp [checkAvailable]
  have hin : dnsInput (checkAvailable env) = none := by
    obtain ⟨e, he⟩ := Option.isSome_iff_exists.mp herr.2
    simp [dnsInput, he]
  have hexp : ∀ (threshold2 now2 exp2 : Int) (s2 : DomainState) (note : Note),
      note ∈ (handleExpiry threshold2 now2 exp2 s2).notes → note ≠ Note.avail := by
    intro threshold2 now2 exp2 s2 note hn hc
    subst hc
    simp only [handleExpiry] at hn
    by_cases h : daysLeftOf now2 exp2 ≤ threshold2 ∧ s2.notifiedExpiry = false
    · rw [if_pos h] at hn
      simp only [List.mem_singleton] at hn
      exact Note.noConfusion hn
    · rw [if_neg h] at hn
      exact absurd hn (List.not_mem_nil _)
  refine ⟨herr, hin, ?_, ?_⟩
  · rw [hin]
    rfl
  · rw [hin]
    cases hv : hasValidExpiration now s with
    | true =>
      intro note hn
      refine hexp threshold now s.expiration s note ?_
      simpa [processDomain, hv] using hn
    | false =>
      cases whois with
      | none =>
        intro note hn
        simp [processDomain, hv] at hn
      | some e =>
        intro note hn
        refine hexp threshold now e { s with expiration := e } note ?_
        simpa [processDomain, hv] using hn

/-- Witness for C6: a timed-out read with an empty state falls through to
the WHOIS stage and emits no availability notification. -/
theorem C6_error_unknown_witness :
    dnsInput (checkAvailable DNSEnv.readFail) = none ∧
      processDomain 30 0 (dnsInput (checkAvailable DNSEnv.readFail))
          (some 1296000000000000) ⟨0, false, false⟩
        = processDomain 30 0 (some false) (some 1296000000000000)
          ⟨0, false, false⟩ :=
  ⟨(C6_error_unknown DNSEnv.readFail 30 0 (some 1296000000000000)
      ⟨0, false, false⟩ trivial).2.1,
    (C6_error_unknown DNSEnv.readFail 30 0 (some 1296000000000000)
      ⟨0, false, false⟩ trivial).2.2.1⟩

/-- C9: the DNS query built for `"example.com"` with the SOA type code 6 is
exactly the 12-byte header followed by the length-prefixed labels
`"example"` and `"com"`, a terminating zero byte, the 2-byte type field and
the 2-byte Internet-class field — 29 bytes in all. -/
theorem C9_query_layout :
    createDNSQuery "example.com".toList 6
        = dnsHeader ++ (7 :: ("example".toList.map Char.toNat))
            ++ (3 :: ("com".toList.map Char.toNat)) ++ [0] ++ u16be 6 ++ [0, 1] ∧
      createDNSQuery "example.com".toList 6
        = [0, 1, 1, 0, 0, 1, 0, 0, 0, 0, 0, 0,
           7, 101, 120, 97, 109, 112, 108, 101, 3, 99, 111, 109,
           0, 0, 6, 0, 1] ∧
      dnsHeader.length = 12 ∧
      (createDNSQuery "example.com".toList 6).length = 29 := by
  refine ⟨?_, ?_, ?_, ?_⟩ <;> decide

theorem countAtt_cons_att (i : Nat) (tr : List REvent) :
    countAtt (REvent.att i :: tr) = countAtt tr + 1 := by
  simp [countAtt, List.countP_cons]

theorem countAtt_cons_sleep (d : Int) (tr : List REvent) :
    countAtt (REvent.sleep d :: tr) = countAtt tr := by
  simp [countAtt, List.countP_cons]

theorem countSleep_cons_att (i : Nat) (tr : List REvent) :
    countSleep (REvent.att i :: tr) = countSleep tr := by
  simp [countSleep, List.countP_cons]

theorem countSleep_cons_sleep (d : Int) (tr : List REvent) :
    countSleep (REvent.sleep d :: tr) = countSleep tr + 1 := by
  simp [countSleep, List.countP_cons]

theorem retryLoop_zero (attempt : Nat → Option String) (jit : Nat → Int)
    (b : Int) (i : Nat) : retryLoop attempt jit b 0 i = (none, []) := rfl

theorem retryLoop_succ_some (attempt : Nat → Option String) (jit : Nat → Int)
    (b : Int) (fuel i : Nat) (raw : String) (ha : attempt i = some raw) :
    retryLoop attempt jit b (fuel + 1) i = (some raw, [REvent.att i]) := by
  simp [retryLoop, ha]

theorem retryLoop_succ_none (attempt : Nat → Option String) (jit : Nat → Int)
    (b : Int) (fuel i : Nat) (ha : attempt i = none) :
    retryLoop attempt jit b (fuel + 1) i
      = ((retryLoop attempt jit b fuel (i + 1)).1,
          REvent.att i :: REvent.sleep (b * 2 ^ i + jit i)
            :: (retryLoop attempt jit b fuel (i + 1)).2) := by
  simp [retryLoop, ha]

theorem retryLoop_countAtt_le (attempt : Nat → Option String) (jit : Nat → Int)
    (b : Int) :
    ∀ fuel i, countAtt (retryLoop attempt jit b fuel i).2 ≤ fuel := by
  intro fuel
  induction fuel with
  | zero => intro i; simp [retryLoop_zero, countAtt]
  | succ n ih =>
    intro i
    cases h : attempt i with
    | some raw =>
      rw [retryLoop_succ_some attempt jit b n i raw h]
      simp [countAtt, List.countP_cons]
    | none =>
      rw [retryLoop_succ_none attempt jit b n i h]
      simp only [countAtt_cons_att, countAtt_cons_sleep]
      have := ih (i + 1)
      omega

theorem retryLoop_head (attempt : Nat → Option String) (jit : Nat → Int)
    (b : Int) (fuel i : Nat) (h : 0 < fuel) :
    ((retryLoop attempt jit b fuel i).2).head? = some (REvent.att i) := by
  cases fuel with
  | zero => omega
  | succ n =>
    cases ha : attempt i with
    | some raw => rw [retryLoop_succ_some attempt jit b n i raw ha]; rfl
    | none => rw [retryLoop_succ_none attempt jit b n i ha]; rfl

theorem retryLoop_att_mem (attempt : Nat → Option String) (jit : Nat → Int)
    (b : Int) :
    ∀ fuel i k, REvent.att k ∈ (retryLoop attempt jit b fuel i).2 →
      i ≤ k ∧ k < i + fuel := by
  intro fuel
  induction fuel with
  | zero => intro i k h; simp [retryLoop_zero] at h
  | succ n ih =>
    intro i k h
    cases ha : attempt i with
    | some raw =>
      rw [retryLoop_succ_some attempt jit b n i raw ha] at h
      simp at h
      omega
    | none =>
      rw [retryLoop_succ_none attempt jit b n i ha] at h
      simp only [List.mem_cons] at h
      rcases h with h | h | h
      · simp at h
        omega
      · exact absurd h (by simp)
      · have := ih (i + 1) k h
        omega

theorem retryLoop_precedes (attempt : Nat → Option String) (jit : Nat → Int)
    (b : Int) :
    ∀ fuel i k, i < k → REvent.att k ∈ (retryLoop attempt jit b fuel i).2 →
      precedes (retryLoop attempt jit b fuel i).2 k
        = some (REvent.sleep (b * 2 ^ (k - 1) + jit (k - 1))) := by
  intro fuel
  induction fuel with
  | zero => intro i k _ h; simp [retryLoop_zero] at h
  | succ n ih =>
    intro i k hik hmem
    cases ha : attempt i with
    | some raw =>
      rw [retryLoop_succ_some attempt jit b n i raw ha] at hmem
      simp at hmem
      omega
    | none =>
      rw [retryLoop_succ_none attempt jit b n i ha] at hmem ⊢
      cases n with
      | zero =>
        rw [retryLoop_zero] at hmem
        simp at hmem
        omega
      | succ m =>
        have hhead := retryLoop_head attempt jit b (m + 1) (i + 1) (Nat.succ_pos m)
        obtain ⟨t, ht⟩ : ∃ t, (retryLoop attempt jit b (m + 1) (i + 1)).2
            = REvent.att (i + 1) :: t := by
          cases hr : (retryLoop attempt jit b (m + 1) (i + 1)).2 with
          | nil => rw [hr] at hhead; simp at hhead
          | cons e rest =>
            rw [hr] at hhead
            simp at hhead
            exact ⟨rest, by rw [hhead]⟩
        rw [ht] at hmem ⊢
        by_cases hk : k = i + 1
        · subst hk
          have h1 : i + 1 - 1 = i := by omega
          rw [h1]
          simp [precedes]
        · have hmem2 : REvent.att k ∈ (retryLoop attempt jit b (m + 1) (i + 1)).2 := by
            rw [ht]
            simp only [List.mem_cons] at hmem
            rcases hmem with h | h | h
            · simp at h; omega
            · exact absurd h (by simp)
            · exact List.mem_cons.mpr h
          have h1k : i + 1 < k := by omega
          have hres := ih (i + 1) k h1k hmem2
          rw [ht] at hres
          simp only [precedes]
          rw [if_neg (by simp), if_neg (by simp; omega)]
          exact hres

theorem retryLoop_all_fail (attempt : Nat → Option String) (jit : Nat → Int)
    (b : Int) :
    ∀ fuel i, (∀ j, i ≤ j → j < i + fuel → attempt j = none) →
      (retryLoop attempt jit b fuel i).1 = none ∧
        countAtt (retryLoop attempt jit b fuel i).2 = fuel ∧
        countSleep (retryLoop attempt jit b fuel i).2 = fuel := by
  intro fuel
  induction fuel with
  | zero => intro i _; simp [retryLoop_zero, countAtt, countSleep]
  | succ n ih =>
    intro i hall
    have ha : attempt i = none := hall i le_rfl (by omega)
    have hih := ih (i + 1) (fun j h1 h2 => hall j (by omega) (by omega))
    rw [retryLoop_succ_none attempt jit b n i ha]
    simp only [countAtt_cons_att, countAtt_cons_sleep, countSleep_cons_att,
      countSleep_cons_sleep]
    exact ⟨hih.1, by omega, by omega⟩

theorem retryLoop_first_success (attempt : Nat → Option String)
    (jit : Nat → Int) (b : Int) :
    ∀ fuel k i raw, k < fuel → attempt (i + k) = some raw →
      (∀ j, j < k → attempt (i + j) = none) →
      (retryLoop attempt jit b fuel i).1 = some raw ∧
        countAtt (retryLoop attempt jit b fuel i).2 = k + 1 ∧
        countSleep (retryLoop attempt jit b fuel i).2 = k := by
  intro fuel
  induction fuel with
  | zero => intro k i raw hk; omega
  | succ n ih =>
    intro k i raw hk hsucc hfail
    cases k with
    | zero =>
      simp only [Nat.add_zero] at hsucc
      rw [retryLoop_succ_some attempt jit b n i raw hsucc]
      simp [countAtt, countSleep, List.countP_cons]
    | succ m =>
      have ha : attempt i = none := by
        have := hfail 0 (Nat.succ_pos m)
        simpa using this
      have hih := ih m (i + 1) raw (by omega)
        (by rw [show i + 1 + m = i + (m + 1) by omega]; exact hsucc)
        (fun j hj => by
          rw [show i + 1 + j = i + (j + 1) by omega]
          exact hfail (j + 1) (by omega))
      rw [retryLoop_succ_none attempt jit b n i ha]
      simp only [countAtt_cons_att, countAtt_cons_sleep, countSleep_cons_att,
        countSleep_cons_sleep]
      exact ⟨hih.1, by omega, by omega⟩

/-- C7 counterexample: with base backoff `b = 1` and two failing attempts,
the event immediately preceding attempt 1 is a sleep of `b * 2 ^ 0 = 1`
nanosecond (plus zero jitter) — it can never equal the `b * 2 ^ 1 + jitter
≥ 2` the claim's formula demands for attempt `i = 1`. -/
theorem C7_counterexample :
    precedes (retryWHOIS 2 1 (fun _ => none) (fun _ => 0)).2 1
        = some (REvent.sleep 1) ∧
      ∀ j : Int, 0 ≤ j →
        REvent.sleep 1 ≠ REvent.sleep (1 * 2 ^ 1 + j) := by
  refine ⟨by decide, fun j hj hc => ?_⟩
  simp only [REvent.sleep.injEq] at hc
  omega

/-- C7 (amended: the wait preceding attempt `i > 0` is `b * 2 ^ (i − 1)`
plus that attempt's jitter — the backoff doubles after each failure
starting from `b` — and after the final failed attempt one further backoff
sleep is performed before failure is reported): the retriever makes at most
`R` attempts, the first attempt happens immediately, retrying stops at the
first transport success (after `k` failures: `k + 1` attempts, `k` sleeps),
and when all `R` attempts fail it reports failure after `R` attempts and
`R` sleeps. -/
theorem C7_retry_schedule (R : Nat) (b : Int) (attempt : Nat → Option String)
    (jit : Nat → Int) :
    countAtt (retryWHOIS R b attempt jit).2 ≤ R ∧
      (0 < R → ((retryWHOIS R b attempt jit).2).head? = some (REvent.att 0)) ∧
      (∀ i, 0 < i → REvent.att i ∈ (retryWHOIS R b attempt jit).2 →
        precedes (retryWHOIS R b attempt jit).2 i
          = some (REvent.sleep (b * 2 ^ (i - 1) + jit (i - 1)))) ∧
      ((∀ j, j < R → attempt j = none) →
        (retryWHOIS R b attempt jit).1 = none ∧
          countAtt (retryWHOIS R b attempt jit).2 = R ∧
          countSleep (retryWHOIS R b attempt jit).2 = R) ∧
      (∀ k raw, k < R → attempt k = some raw →
        (∀ j, j < k → attempt j = none) →
        (retryWHOIS R b attempt jit).1 = some raw ∧
          countAtt (retryWHOIS R b attempt jit).2 = k + 1 ∧
          countSleep (retryWHOIS R b attempt jit).2 = k) := by
  refine ⟨retryLoop_countAtt_le attempt jit b R 0, ?_, ?_, ?_, ?_⟩
  · exact fun h => retryLoop_head attempt jit b R 0 h
  · exact fun i hi hm => retryLoop_precedes attempt jit b R 0 i hi hm
  · exact fun hall => retryLoop_all_fail attempt jit b R 0
      (fun j _ hj => hall j (by omega))
  · intro k raw hk hsucc hfail
    exact retryLoop_first_success attempt jit b R k 0 raw hk
      (by simpa using hsucc) (fun j hj => by simpa using hfail j hj)

/-- Witness for C7: three configured retries with base backoff 2 where the
transport succeeds on attempt 1 — the trace starts with attempt 0, the wait
before attempt 1 is `2 * 2 ^ 0` plus jitter 7, and the loop stops after two
attempts and one sleep with the raw text returned. -/
theorem C7_retry_schedule_witness :
    ((retryWHOIS 3 2 (fun i => if i = 1 then some "raw" else none)
        (fun _ => 7)).2).head? = some (REvent.att 0) ∧
      precedes (retryWHOIS 3 2 (fun i => if i = 1 then some "raw" else none)
          (fun _ => 7)).2 1 = some (REvent.sleep (2 * 2 ^ 0 + 7)) ∧
      (retryWHOIS 3 2 (fun i => if i = 1 then some "raw" else none)
          (fun _ => 7)).1 = some "raw" ∧
      countAtt (retryWHOIS 3 2 (fun i => if i = 1 then some "raw" else none)
          (fun _ => 7)).2 = 2 ∧
      countSleep (retryWHOIS 3 2 (fun i => if i = 1 then some "raw" else none)
          (fun _ => 7)).2 = 1 :=
  ⟨(C7_retry_schedule 3 2 (fun i => if i = 1 then some "raw" else none)
      (fun _ => 7)).2.1 (by decide),
    (C7_retry_schedule 3 2 (fun i => if i = 1 then some "raw" else none)
      (fun _ => 7)).2.2.1 1 (by decide) (by decide),
    ((C7_retry_schedule 3 2 (fun i => if i = 1 then some "raw" else none)
      (fun _ => 7)).2.2.2.2 1 "raw" (by decide) rfl
      (fun j hj => by
        have hz : j = 0 := by omega
        subst hz
        rfl)).1,
    ((C7_retry_schedule 3 2 (fun i => if i = 1 then some "raw" else none)
      (fun _ => 7)).2.2.2.2 1 "raw" (by decide) rfl
      (fun j hj => by
        have hz : j = 0 := by omega
        subst hz
        rfl)).2.1,
    ((C7_retry_schedule 3 2 (fun i => if i = 1 then some "raw" else none)
      (fun _ => 7)).2.2.2.2 1 "raw" (by decide) rfl
      (fun j hj => by
        have hz : j = 0 := by omega
        subst hz
        rfl)).2.2⟩

theorem parseDateOnly_midnight (cs : List Char) (t : GoTime)
    (h : parseDateOnly cs = some t) :
    t.hour = 0 ∧ t.minute = 0 ∧ t.second = 0 ∧ t.nsec = 0 ∧ t.offset = 0 := by
  unfold parseDateOnly at h
  cases h1 : parseYMD cs with
  | none => rw [h1] at h; exact absurd h (by simp)
  | some p =>
    rw [h1] at h
    obtain ⟨y, mo, d, r5⟩ := p
    dsimp only at h
    split at h
    · simp only [Option.some.injEq] at h
      subst h
      exact ⟨rfl, rfl, rfl, rfl, rfl⟩
    · exact absurd h (by simp)

/-- C8: `parseExpiration` attempts strict RFC3339 parsing first and returns
its result unchanged on success; only when that fails does it attempt the
date-only calendar format, whose result is midnight UTC of the parsed date;
when both formats fail the whole call is a parse error. -/
theorem C8_parse_order (cs : List Char) :
    (∀ t, parseRFC3339 cs = some t → parseExpiration cs = some t) ∧
      (parseRFC3339 cs = none → parseExpiration cs = parseDateOnly cs) ∧
      (∀ t, parseDateOnly cs = some t →
        t.hour = 0 ∧ t.minute = 0 ∧ t.second = 0 ∧ t.nsec = 0 ∧ t.offset = 0) ∧
      (parseRFC3339 cs = none → parseDateOnly cs = none →
        parseExpiration cs = none) := by
  refine ⟨fun t ht => ?_, fun hr => ?_, fun t ht => parseDateOnly_midnight cs t ht,
    fun hr hd => ?_⟩
  · rw [parseExpiration, ht]
  · rw [parseExpiration, hr]
  · rw [parseExpiration, hr, hd]

/-- Witness for C8 on the repository's own test vectors: a full RFC3339
timestamp parses to that exact instant, a bare date parses to midnight UTC,
and `"invalid"` is a parse error. -/
theorem C8_parse_order_witness :
    parseExpiration "2025-05-01T12:34:56Z".toList
        = some ⟨2025, 5, 1, 12, 34, 56, 0, 0⟩ ∧
      parseExpiration "2025-05-01".toList = some ⟨2025, 5, 1, 0, 0, 0, 0, 0⟩ ∧
      parseExpiration "invalid".toList = none :=
  ⟨(C8_parse_order "2025-05-01T12:34:56Z".toList).1 ⟨2025, 5, 1, 12, 34, 56, 0, 0⟩
      (by decide),
    by
      rw [(C8_parse_order "2025-05-01".toList).2.1 (by decide)]
      decide,
    (C8_parse_order "invalid".toList).2.2.2 (by decide) (by decide)⟩

theorem digitVal?_digitChar (d : Nat) (hd : d < 10) :
    digitVal? (digitChar d) = some d := by
  interval_cases d <;> decide

theorem expectCh_cons_self (c : Char) (r : List Char) :
    expectCh c (c :: r) = some r := by
  simp [expectCh]

theorem readN_pad2 (x : Nat) (hx : x ≤ 99) (r : List Char) :
    readN 2 (pad2 x ++ r) = some (x, r) := by
  have h1 := digitVal?_digitChar (x / 10 % 10) (Nat.mod_lt _ (by omega))
  have h2 := digitVal?_digitChar (x % 10) (Nat.mod_lt _ (by omega))
  simp only [pad2, pad2digits, List.map_cons, List.map_nil, List.cons_append,
    List.nil_append, readN, readNAux, h1, h2, Option.some.injEq, Prod.mk.injEq]
  constructor
  · omega
  · rfl

theorem readN_pad4 (x : Nat) (hx : x ≤ 9999) (r : List Char) :
    readN 4 (pad4 x ++ r) = some (x, r) := by
  have h1 := digitVal?_digitChar (x / 1000 % 10) (Nat.mod_lt _ (by omega))
  have h2 := digitVal?_digitChar (x / 100 % 10) (Nat.mod_lt _ (by omega))
  have h3 := digitVal?_digitChar (x / 10 % 10) (Nat.mod_lt _ (by omega))
  have h4 := digitVal?_digitChar (x % 10) (Nat.mod_lt _ (by omega))
  simp only [pad4, pad4digits, List.map_cons, List.map_nil, List.cons_append,
    List.nil_append, readN, readNAux, h1, h2, h3, h4, Option.some.injEq,
    Prod.mk.injEq]
  constructor
  · omega
  · rfl

theorem takeDigits_map_digitChar (ds : List Nat) (hds : ∀ d ∈ ds, d < 10)
    (r : List Char) (hr : ∀ c rest, r = c :: rest → digitVal? c = none) :
    takeDigits (ds.map digitChar ++ r) = (ds, r) := by
  induction ds with
  | nil =>
    simp only [List.map_nil, List.nil_append]
    cases r with
    | nil => rfl
    | cons c rest =>
      simp only [takeDigits, hr c rest rfl]
  | cons d ds ih =>
    have hd : d < 10 := hds d (List.mem_cons_self d ds)
    simp only [List.map_cons, List.cons_append, takeDigits,
      digitVal?_digitChar d hd, List.append_eq]
    rw [ih (fun e he => hds e (List.mem_cons_of_mem d he))]

theorem digitsVal_append_single (l : List Nat) (d : Nat) :
    digitsVal (l ++ [d]) = digitsVal l * 10 + d := by
  simp [digitsVal, List.foldl_append]

theorem stripZeros_append_zero (l : List Nat) :
    stripZeros (l ++ [0]) = stripZeros l := by
  simp [stripZeros, List.reverse_append]

theorem stripZeros_append_ne (l : List Nat) (d : Nat) (hd : d ≠ 0) :
    stripZeros (l ++ [d]) = l ++ [d] := by
  simp only [stripZeros, List.reverse_append, List.reverse_cons,
    List.reverse_nil, List.nil_append, List.singleton_append,
    List.dropWhile_cons]
  rw [if_neg (by simpa using hd)]
  simp

theorem stripZeros_length_le (ds : List Nat) :
    (stripZeros ds).length ≤ ds.length := by
  simp only [stripZeros, List.length_reverse]
  calc (ds.reverse.dropWhile fun d => d == 0).length
      ≤ ds.reverse.length := (List.dropWhile_sublist _).length_le
    _ = ds.length := List.length_reverse ds

theorem mem_stripZeros (ds : List Nat) (d : Nat) (h : d ∈ stripZeros ds) :
    d ∈ ds := by
  simp only [stripZeros, List.mem_reverse] at h
  have := (List.dropWhile_sublist (fun d => d == 0)).subset h
  simpa using this

theorem digitsVal_stripZeros (ds : List Nat) :
    digitsVal ds
      = digitsVal (stripZeros ds) * 10 ^ (ds.length - (stripZeros ds).length) := by
  induction ds using List.reverseRecOn with
  | nil => simp [stripZeros, digitsVal]
  | append_singleton l d ih =>
    by_cases hd : d = 0
    · subst hd
      rw [stripZeros_append_zero, digitsVal_append_single, ih]
      have hle := stripZeros_length_le l
      have hexp : (l ++ [0]).length - (stripZeros l).length
          = (l.length - (stripZeros l).length) + 1 := by
        simp only [List.length_append, List.length_cons, List.length_nil]
        omega
      rw [hexp]
      ring
    · rw [stripZeros_append_ne l d hd]
      simp

theorem pad9digits_lt (x : Nat) : ∀ d ∈ pad9digits x, d < 10 := by
  intro d hd
  simp only [pad9digits, List.mem_cons, List.not_mem_nil, or_false] at hd
  rcases hd with h | h | h | h | h | h | h | h | h <;> subst h <;> omega

theorem pad9digits_length (x : Nat) : (pad9digits x).length = 9 := rfl

theorem digitsVal_pad9digits (x : Nat) (hx : x < 1000000000) :
    digitsVal (pad9digits x) = x := by
  simp only [pad9digits, digitsVal, List.foldl_cons, List.foldl_nil]
  omega

theorem stripZeros_pad9_ne_nil (x : Nat) (hx : x ≠ 0) (hlt : x < 1000000000) :
    stripZeros (pad9digits x) ≠ [] := by
  intro hnil
  have := digitsVal_stripZeros (pad9digits x)
  rw [hnil, digitsVal_pad9digits x hlt] at this
  simp [digitsVal] at this
  exact hx this

theorem fracVal_stripZeros_pad9 (x : Nat) (hlt : x < 1000000000) :
    fracVal (stripZeros (pad9digits x)) = x := by
  have hle : (stripZeros (pad9digits x)).length ≤ 9 := by
    have := stripZeros_length_le (pad9digits x)
    rwa [pad9digits_length] at this
  have htake : (stripZeros (pad9digits x)).take 9 = stripZeros (pad9digits x) :=
    List.take_of_length_le hle
  rw [fracVal, htake]
  have := digitsVal_stripZeros (pad9digits x)
  rw [digitsVal_pad9digits x hlt, pad9digits_length] at this
  omega

theorem parseFrac_not_start (c : Char) (r : List Char)
    (hc : ¬(c = '.' ∨ c = ',')) : parseFrac (c :: r) = (0, c :: r) := by
  cases r with
  | nil => rfl
  | cons c2 r' =>
    simp only [parseFrac]
    rw [if_neg]
    intro h
    exact hc h.1

theorem parseFrac_fracChars (ns : Nat) (hns : ns < 1000000000) (c : Char)
    (hc : ¬(c = '.' ∨ c = ',')) (hcd : digitVal? c = none) (r : List Char) :
    parseFrac (fracChars ns ++ (c :: r)) = (ns, c :: r) := by
  by_cases h0 : ns = 0
  · subst h0
    simp only [fracChars, if_pos rfl, List.nil_append]
    exact parseFrac_not_start c r hc
  · have hne := stripZeros_pad9_ne_nil ns h0 hns
    obtain ⟨d0, ds', hds⟩ : ∃ d0 ds', stripZeros (pad9digits ns) = d0 :: ds' := by
      cases h : stripZeros (pad9digits ns) with
      | nil => exact absurd h hne
      | cons a l => exact ⟨a, l, rfl⟩
    have hmem : ∀ d ∈ stripZeros (pad9digits ns), d < 10 :=
      fun d hd => pad9digits_lt ns d (mem_stripZeros _ d hd)
    have hd0 : d0 < 10 := by
      apply hmem
      rw [hds]
      exact List.mem_cons_self _ _
    have htd := takeDigits_map_digitChar (d0 :: ds') (by rw [← hds]; exact hmem)
      (c :: r) (fun c' rest' heq => by cases heq; exact hcd)
    simp only [List.map_cons, List.cons_append] at htd
    simp only [fracChars, if_neg h0, hds, List.map_cons, List.cons_append]
    simp [parseFrac, digitVal?_digitChar d0 hd0, htd]
    rw [← hds, fracVal_stripZeros_pad9 ns hns]

theorem parseOffset_formatOffset (off : Int) (hoff : off.natAbs ≤ 1439) :
    parseOffset (formatOffset off) = some (off, []) := by
  by_cases h0 : off = 0
  · subst h0
    rfl
  · by_cases hneg : off < 0
    · simp only [formatOffset, if_neg h0, if_pos hneg]
      simp only [parseOffset]
      rw [if_neg (by decide), if_pos (by simp)]
      rw [readN_pad2 _ (by omega) _]
      dsimp only
      rw [expectCh_cons_self]
      dsimp only
      rw [show pad2 (off.natAbs % 60) = pad2 (off.natAbs % 60) ++ []
            from (List.append_nil _).symm]
      rw [readN_pad2 _ (by omega) _]
      dsimp only
      rw [if_pos ⟨by omega, by omega⟩, if_pos (by simp)]
      simp only [Option.some.injEq, Prod.mk.injEq]
      constructor
      · omega
      · trivial
    · simp only [formatOffset, if_neg h0, if_neg hneg]
      simp only [parseOffset]
      rw [if_neg (by decide), if_pos (by simp)]
      rw [readN_pad2 _ (by omega) _]
      dsimp only
      rw [expectCh_cons_self]
      dsimp only
      rw [show pad2 (off.natAbs % 60) = pad2 (off.natAbs % 60) ++ []
            from (List.append_nil _).symm]
      rw [readN_pad2 _ (by omega) _]
      dsimp only
      rw [if_pos ⟨by omega, by omega⟩, if_neg (by decide)]
      simp only [Option.some.injEq, Prod.mk.injEq]
      constructor
      · omega
      · trivial

theorem daysInMonth_le (y m : Nat) : daysInMonth y m ≤ 31 := by
  unfold daysInMonth
  split <;> first | omega | (split <;> omega)

theorem parseYMD_format (y mo d : Nat) (hy : y ≤ 9999) (hmo : mo ≤ 99)
    (hd : d ≤ 99) (r : List Char) :
    parseYMD (pad4 y ++ '-' :: (pad2 mo ++ '-' :: (pad2 d ++ r)))
      = some (y, mo, d, r) := by
  simp only [parseYMD]
  rw [readN_pad4 y hy]
  dsimp only
  rw [expectCh_cons_self]
  dsimp only
  rw [readN_pad2 mo hmo]
  dsimp only
  rw [expectCh_cons_self]
  dsimp only
  rw [readN_pad2 d hd]

theorem parseHMS_format (h mi s : Nat) (hh : h ≤ 99) (hmi : mi ≤ 99)
    (hs : s ≤ 99) (r : List Char) :
    parseHMS (pad2 h ++ ':' :: (pad2 mi ++ ':' :: (pad2 s ++ r)))
      = some (h, mi, s, r) := by
  simp only [parseHMS]
  rw [readN_pad2 h hh]
  dsimp only
  rw [expectCh_cons_self]
  dsimp only
  rw [readN_pad2 mi hmi]
  dsimp only
  rw [expectCh_cons_self]
  dsimp only
  rw [readN_pad2 s hs]

theorem parseRFC3339_format (t : GoTime) (hwf : WFTime t)
    (hy : t.year ≤ 9999) : parseRFC3339 (formatRFC3339Nano t) = some t := by
  obtain ⟨y, mo, d, h, mi, s, ns, off⟩ := t
  obtain ⟨hdate, hclock, hns, hoff⟩ := hwf
  simp only at hdate hclock hns hoff hy
  have hdate2 := of_decide_eq_true hdate
  have hclock2 := of_decide_eq_true hclock
  have hshape : formatRFC3339Nano ⟨y, mo, d, h, mi, s, ns, off⟩
      = pad4 y ++ '-' :: (pad2 mo ++ '-' :: (pad2 d ++
          ('T' :: (pad2 h ++ ':' :: (pad2 mi ++ ':' :: (pad2 s ++
            (fracChars ns ++ formatOffset off))))))) := by
    simp [formatRFC3339Nano, List.append_assoc]
  have hd31 := daysInMonth_le y mo
  rw [hshape]
  simp only [parseRFC3339]
  rw [parseYMD_format y mo d hy (by omega) (by omega)]
  dsimp only
  rw [expectCh_cons_self]
  dsimp only
  rw [parseHMS_format h mi s (by omega) (by omega) (by omega)]
  dsimp only
  obtain ⟨c0, r0, hoffshape, hc0, hc0d⟩ :
      ∃ c0 r0, formatOffset off = c0 :: r0 ∧ ¬(c0 = '.' ∨ c0 = ',') ∧
        digitVal? c0 = none := by
    by_cases h0 : off = 0
    · exact ⟨'Z', [], by simp [formatOffset, h0], by decide, by decide⟩
    · by_cases hneg : off < 0
      · exact ⟨'-', pad2 (off.natAbs / 60) ++ ':' :: pad2 (off.natAbs % 60),
          by simp [formatOffset, h0, hneg], by decide, by decide⟩
      · exact ⟨'+', pad2 (off.natAbs / 60) ++ ':' :: pad2 (off.natAbs % 60),
          by simp [formatOffset, h0, hneg], by decide, by decide⟩
  rw [hoffshape, parseFrac_fracChars ns hns c0 hc0 hc0d r0]
  dsimp only
  rw [← hoffshape, parseOffset_formatOffset off hoff]
  dsimp only
  rw [if_pos ⟨rfl, hdate, hclock⟩]

/-- C10: for every stored state whose expiration instant is exactly
representable in the RFC3339 serialization used by the JSON encoding (a
well-formed broken-down instant whose year fits the four-digit field),
loading the state immediately after saving it returns a state equal to the
saved one: the same expiration instant and both notification flags. -/
theorem C10_state_roundtrip (st : StoredState) (hwf : WFTime st.expiration)
    (hy : st.expiration.year ≤ 9999) :
    (saveState st).bind loadState = some st := by
  obtain ⟨t, fe, fa⟩ := st
  simp only at hwf hy
  have hm : marshalOK t = true := decide_eq_true hy
  simp only [saveState, hm, if_true, Option.some_bind, loadState]
  rw [parseRFC3339_format t hwf hy]
  rfl

/-- Witness for C10 at a concrete state: an instant with fractional
nanoseconds and a `+02:30` zone offset survives the save/load round trip
together with its flags. -/
theorem C10_state_roundtrip_witness :
    (saveState ⟨⟨2025, 5, 1, 12, 34, 56, 150000000, 150⟩, true, false⟩).bind
        loadState
      = some ⟨⟨2025, 5, 1, 12, 34, 56, 150000000, 150⟩, true, false⟩ :=
  C10_state_roundtrip ⟨⟨2025, 5, 1, 12, 34, 56, 150000000, 150⟩, true, false⟩
    (by refine ⟨?_, ?_, ?_, ?_⟩ <;> decide) (by decide)

end DomainChecker
